import Mathlib

/-!
Shallow embedding of `src/Bag_to_CSV.py` (a rosbag-to-CSV converter) and
verification of its specification claims.

Modelling conventions:
* A ROS message value is a tree: a scalar leaf (numeric, string, boolean,
  byte array) or a record with named fields in `__slots__` declaration order.
  `Value.err` models a scalar whose text serialization (`str()` inside
  `csv.DictWriter.writerow`) raises; the carried string is the exception text.
* Timestamps (`t.to_sec()`, a float) are modelled as opaque scalar `Value`s;
  no claim depends on float arithmetic on timestamps.
* Python exceptions are the inductive `PyError`; its constructors stand for
  `rosbag.ROSBagException`, `OSError`, and any other exception class.
* Files are modelled as association lists from path to a list of CSV rows
  (each row a list of cell strings); a file absent from the table is the
  same as an existing zero-byte file, matching append-mode `open` where
  `tell() == 0` iff the file is empty.
-/

/-- A scalar leaf value of a ROS message.  `err` models a value whose
`str()` conversion raises during CSV row serialization. -/
inductive Value where
  | num : Int → Value
  | str : String → Value
  | boolean : Bool → Value
  | bytes : List Nat → Value
  | err : String → Value
  deriving Repr, DecidableEq

/-- A structured ROS message: either a scalar or a record whose fields are
listed in `__slots__` declaration order.  (In Python, a value is treated as
nested iff it has a `__slots__` attribute; field names are identifiers, so
they are distinct within one record and contain no dot.) -/
inductive StructuredMessage where
  | scalar : Value → StructuredMessage
  | record : List (String × StructuredMessage) → StructuredMessage
  deriving Repr

/-- Line 37: `full_field_name = f"{parent_field}.{field}" if parent_field else field`. -/
def fullFieldName (parent_field : Option String) (field : String) : String :=
  match parent_field with
  | some p => p ++ "." ++ field
  | none => field

/-- The loop body of `extract_message_attributes` (lines 36-41), recursing
over the field list of a record.  On a nested record field it recurses with
the extended parent path; on a scalar field it emits one key/value pair.
(Python accumulates into a dict; `__slots__` names are distinct identifiers
without dots, so all generated dotted keys are distinct and dict insertion
never overwrites — an append-only association list is the same mapping.) -/
def extractFrom : List (String × StructuredMessage) → Option String → List (String × Value)
  | [], _ => []
  | (field, StructuredMessage.scalar sv) :: rest, parent =>
      (fullFieldName parent field, sv) :: extractFrom rest parent
  | (field, StructuredMessage.record sub) :: rest, parent =>
      extractFrom sub (some (fullFieldName parent field)) ++ extractFrom rest parent
termination_by fields _ => sizeOf fields
decreasing_by
  all_goals (simp_wf; try omega)

/-- Lines 31-42: `extract_message_attributes(message, parent_field=None)`.
The Python function is only ever applied to values with `__slots__`
(records); on a bare scalar the slot loop would not run, yielding `{}`. -/
def extract_message_attributes (message : StructuredMessage) (parent_field : Option String) :
    List (String × Value) :=
  match message with
  | StructuredMessage.scalar _ => []
  | StructuredMessage.record fields => extractFrom fields parent_field

/-- Specification-side description of the scalar leaves of a field list:
each leaf is reported with the list of field names on the path from the
root to the leaf, in declaration order. -/
def leavesFrom : List (String × StructuredMessage) → List (List String × Value)
  | [] => []
  | (field, StructuredMessage.scalar sv) :: rest => ([field], sv) :: leavesFrom rest
  | (field, StructuredMessage.record sub) :: rest =>
      (leavesFrom sub).map (fun pv => (field :: pv.1, pv.2)) ++ leavesFrom rest
termination_by fields => sizeOf fields
decreasing_by
  all_goals (simp_wf; try omega)

/-- Specification-side dot-joining of a path of field names. -/
def dotJoin : List String → String
  | [] => ""
  | [f] => f
  | f :: g :: rest => f ++ "." ++ dotJoin (g :: rest)

theorem fullFieldName_append (parent : Option String) (f s : String) :
    fullFieldName parent (f ++ "." ++ s) = fullFieldName parent f ++ "." ++ s := by
  cases parent <;> simp [fullFieldName, String.append_assoc]

theorem dotJoin_cons_of_ne_nil (f : String) (p : List String) (h : p ≠ []) :
    dotJoin (f :: p) = f ++ "." ++ dotJoin p := by
  cases p with
  | nil => exact absurd rfl h
  | cons g rest => rfl

theorem leavesFrom_path_ne_nil (fields : List (String × StructuredMessage)) :
    ∀ pv ∈ leavesFrom fields, pv.1 ≠ [] := by
  induction fields using leavesFrom.induct with
  | case1 => intro pv h; simp [leavesFrom] at h
  | case2 field sv rest ih =>
      intro pv h
      simp only [leavesFrom, List.mem_cons] at h
      rcases h with h | h
      · subst h; simp
      · exact ih pv h
  | case3 field sub rest ih1 ih2 =>
      intro pv h
      simp only [leavesFrom, List.mem_append, List.mem_map] at h
      rcases h with ⟨qv, _, hq⟩ | h
      · subst hq; simp
      · exact ih2 pv h

theorem extractFrom_eq_leaves (fields : List (String × StructuredMessage))
    (parent : Option String) :
    extractFrom fields parent
      = (leavesFrom fields).map (fun pv => (fullFieldName parent (dotJoin pv.1), pv.2)) := by
  induction fields, parent using extractFrom.induct with
  | case1 parent => simp [extractFrom, leavesFrom]
  | case2 field sv rest parent ih =>
      simp [extractFrom, leavesFrom, ih, dotJoin]
  | case3 field sub rest parent ih1 ih2 =>
      simp only [extractFrom, leavesFrom, ih1, ih2, List.map_append, List.map_map]
      congr 1
      apply List.map_congr_left
      intro pv hpv
      have hne := leavesFrom_path_ne_nil sub pv hpv
      simp only [Function.comp_apply]
      rw [dotJoin_cons_of_ne_nil _ _ hne, fullFieldName_append]
      rfl

/-- C1: for every structured message with scalar leaves, at any nesting depth
(including 0, 1, 5), `extract_message_attributes` returns exactly the mapping
whose key for each scalar leaf is the dot-joined path of field names from the
root to that leaf (in declaration order), nested sub-records contributing
their keys by recursion with the parent path prefixed. -/
theorem claim_C1_flatten_keys_are_dotted_paths :
    (∀ fields : List (String × StructuredMessage),
      extract_message_attributes (StructuredMessage.record fields) none
        = (leavesFrom fields).map (fun pv => (dotJoin pv.1, pv.2)))
    ∧ (∀ (fields : List (String × StructuredMessage)) (parent : Option String),
      extractFrom fields parent
        = (leavesFrom fields).map (fun pv => (fullFieldName parent (dotJoin pv.1), pv.2))) := by
  constructor
  · intro fields
    simpa [extract_message_attributes, fullFieldName] using extractFrom_eq_leaves fields none
  · exact extractFrom_eq_leaves

theorem flatten_depth_five_example :
    extract_message_attributes
      (StructuredMessage.record [("a", StructuredMessage.record
        [("b", StructuredMessage.record
          [("c", StructuredMessage.record
            [("d", StructuredMessage.record
              [("e", StructuredMessage.scalar (Value.num 7))])])])])]) none
      = [("a.b.c.d.e", Value.num 7)] := by
  simp [extract_message_attributes, extractFrom, fullFieldName]

/-- A Python exception, classified the way the source's `except` clauses
classify them: `rosbag.ROSBagException` (line 27), `OSError` (line 75), or
any other exception class (e.g. a `genpy` deserialization error or an
error raised by `str()`).  The string is the exception message. -/
inductive PyError where
  | rosbagError : String → PyError
  | osError : String → PyError
  | otherError : String → PyError
  deriving Repr, DecidableEq

/-- One record of a bag: topic, timestamp (`t.to_sec()`, modelled as an
opaque scalar), and message. -/
structure LogRecord where
  topic : String
  timestamp : Value
  message : StructuredMessage
  deriving Repr

/-- The observable behaviour of one bag file towards `rosbag`:
the records `read_messages()` yields in stored order, followed by an
optional exception raised by `rosbag.Bag(...)` or by the iteration.
(An open failure is the case `pre = []`.) -/
structure Bag where
  pre : List LogRecord
  failure : Option PyError

/-- What a caller iterating the `extract_topics` generator observes:
the records it yielded, the lines it printed, and an exception escaping
the generator, if any. -/
structure GenResult where
  yielded : List LogRecord
  log : List String
  escaped : Option PyError
  deriving Repr

/-- Lines 18-28: `extract_topics(rosbag_file)`.  Yields every record of
the bag (no topic is filtered), and its `try`/`except` catches exactly
`rosbag.ROSBagException`, printing `f"Error processing {rosbag_file}: {e}"`;
an exception of any other class escapes the generator. -/
def extract_topics (rosbag_file : String) (bag : Bag) : GenResult :=
  match bag.failure with
  | none => ⟨bag.pre, [], none⟩
  | some (PyError.rosbagError m) =>
      ⟨bag.pre, ["Error processing " ++ rosbag_file ++ ": " ++ m], none⟩
  | some e => ⟨bag.pre, [], some e⟩

def msgX1 : StructuredMessage := StructuredMessage.record [("x", StructuredMessage.scalar (Value.num 1))]

def recA : LogRecord := ⟨"A", Value.num 1, msgX1⟩

def recB : LogRecord := ⟨"B", Value.num 2, msgX1⟩

def recC : LogRecord := ⟨"C", Value.num 3, msgX1⟩

/-- C4 counterexample: on a healthy stream with topics `A`, `B`, `C`,
`extract_topics` yields all three records — the record for the "excluded"
topic `B` included — not just the records for `A` and `C`: the code
implements no topic exclusion set. -/
theorem claim_C4_counterexample :
    (extract_topics "run.bag" ⟨[recA, recB, recC], none⟩).yielded = [recA, recB, recC]
    ∧ recB.topic = "B"
    ∧ (extract_topics "run.bag" ⟨[recA, recB, recC], none⟩).yielded ≠ [recA, recC] := by
  refine ⟨rfl, rfl, fun h => ?_⟩
  have hlen := congrArg List.length h
  simp [extract_topics] at hlen

/-- C4 (amended): `extract_topics` filters nothing: for every bag file whose
open and read succeed, it yields every record of the container — all topics
retained — in original relative order, printing nothing and raising nothing. -/
theorem claim_C4_all_records_yielded (rosbag_file : String) (bag : Bag)
    (h : bag.failure = none) :
    (extract_topics rosbag_file bag).yielded = bag.pre
    ∧ (extract_topics rosbag_file bag).log = []
    ∧ (extract_topics rosbag_file bag).escaped = none := by
  simp [extract_topics, h]

theorem claim_C4_all_records_yielded_witness :
    (extract_topics "run.bag" ⟨[recA, recB, recC], none⟩).yielded = [recA, recB, recC]
    ∧ (extract_topics "run.bag" ⟨[recA, recB, recC], none⟩).log = []
    ∧ (extract_topics "run.bag" ⟨[recA, recB, recC], none⟩).escaped = none :=
  claim_C4_all_records_yielded "run.bag" ⟨[recA, recB, recC], none⟩ rfl

/-- C6 (amended): a container failure raised as `rosbag.ROSBagException` does
not propagate past the file boundary: `extract_topics` yields exactly the
records read before the failure, prints the file path and the message, and
terminates the sequence as if exhausted.  A container open/read failure of
any other exception class (e.g. the `OSError` raised for a missing or
unreadable file) escapes the generator — see the counterexample. -/
theorem claim_C6_rosbag_error_contained (rosbag_file m : String) (bag : Bag)
    (h : bag.failure = some (PyError.rosbagError m)) :
    extract_topics rosbag_file bag
      = ⟨bag.pre, ["Error processing " ++ rosbag_file ++ ": " ++ m], none⟩ := by
  simp [extract_topics, h]

theorem claim_C6_rosbag_error_contained_witness :
    extract_topics "corrupt.bag" ⟨[recA], some (PyError.rosbagError "unindexed bag")⟩
      = ⟨[recA], ["Error processing corrupt.bag: unindexed bag"], none⟩ :=
  claim_C6_rosbag_error_contained "corrupt.bag" "unindexed bag"
    ⟨[recA], some (PyError.rosbagError "unindexed bag")⟩ rfl

/-- C6 counterexample: opening a missing or unreadable bag raises `OSError`,
which line 27's `except rosbag.ROSBagException` does not catch: the
exception escapes `extract_topics`, contradicting the claim that no
open/read failure propagates past the file boundary. -/
theorem claim_C6_counterexample :
    (extract_topics "missing.bag" ⟨[], some (PyError.osError "No such file or directory")⟩).escaped
      = some (PyError.osError "No such file or directory")
    ∧ (extract_topics "missing.bag" ⟨[], some (PyError.osError "No such file or directory")⟩).escaped
      ≠ none := by
  simp [extract_topics]

/-- Python `str(value)` as `csv.writer` applies it to each cell while
building a data row: the printable text, or the exception message when the
value's text conversion raises.  (`Value.err` is the unserializable case;
the exact rendering of byte arrays is irrelevant to every claim.) -/
def pyStr : Value → Except String String
  | Value.num n => Except.ok (toString n)
  | Value.str s => Except.ok s
  | Value.boolean b => Except.ok (if b then "True" else "False")
  | Value.bytes bs => Except.ok ("bytes" ++ toString bs)
  | Value.err m => Except.error m

/-- Python dict assignment `d[k] = v`: overwrite in place if the key is
present (keeping its position), otherwise append. -/
def dictInsert : List (String × Value) → String → Value → List (String × Value)
  | [], k, v => [(k, v)]
  | p :: rest, k, v => if p.1 = k then (k, v) :: rest else p :: dictInsert rest k v

/-- Python `d.get(k)`: the value at the first matching key, if any. -/
def dictGet : List (String × Value) → String → Option Value
  | [], _ => none
  | p :: rest, k => if p.1 = k then some p.2 else dictGet rest k

/-- One cell of a `csv.DictWriter` data row: the row dict's value for the
fieldname, serialized; a missing key yields the writer's `restval`
(`None`, written as the empty string). -/
def cellText (d : List (String × Value)) (f : String) : Except String String :=
  match dictGet d f with
  | some v => pyStr v
  | none => Except.ok ""

/-- The cells `csv.DictWriter.writerow` produces, one per fieldname in
order; the first cell whose serialization raises aborts the whole row
(the line is joined in memory before anything is written). -/
def rowCells : List String → List (String × Value) → Except String (List String)
  | [], _ => Except.ok []
  | f :: rest, d =>
      match cellText d f, rowCells rest d with
      | Except.error m, _ => Except.error m
      | Except.ok _, Except.error m => Except.error m
      | Except.ok s, Except.ok row => Except.ok (s :: row)

/-- Python `str.replace` with a one-character pattern — the only form the
source uses (`topic.replace('/', '_')`, line 50): every occurrence of the
character is replaced. -/
def replaceChar (old new : Char) : List Char → List Char
  | [] => []
  | c :: rest => (if c = old then new else c) :: replaceChar old new rest

/-- Line 50: `f"{topic.replace('/', '_')}.csv"`. -/
def csvFileName (topic : String) : String :=
  String.mk (replaceChar '/' '_' topic.data) ++ ".csv"

/-- Line 50: `os.path.join(output_folder, ...)`; the output folder names
the source builds carry no trailing separator, so join inserts one `/`. -/
def csv_file_path (output_folder topic : String) : String :=
  output_folder ++ "/" ++ csvFileName topic

/-- Line 52: `fieldnames=['Timestamp'] + list(extract_message_attributes(message).keys())`. -/
def recFieldnames (message : StructuredMessage) : List String :=
  "Timestamp" :: (extract_message_attributes message none).map (fun p => p.1)

/-- Lines 55-56: the row dict — the flattened attributes with
`attributes['Timestamp'] = timestamp` assigned on top (overwriting any
flattened `Timestamp` key). -/
def recDict (r : LogRecord) : List (String × Value) :=
  dictInsert (extract_message_attributes r.message none) "Timestamp" r.timestamp

/-- Line 57: the data row written for one record, or the serialization
error `writerow` raises. -/
def recRow (r : LogRecord) : Except String (List String) :=
  rowCells (recFieldnames r.message) (recDict r)

/-- Whether the record's row serializes without raising. -/
def isOkRow (r : LogRecord) : Bool :=
  match recRow r with
  | Except.ok _ => true
  | Except.error _ => false

/-- The cells of a record's row when serialization succeeds. -/
def rowVal (r : LogRecord) : List String :=
  match recRow r with
  | Except.ok row => row
  | Except.error _ => []

/-- Line 59's print for a record whose processing raised. -/
def errLine (r : LogRecord) : String :=
  "Error processing " ++ r.topic ++ ": " ++
    (match recRow r with
     | Except.error m => m
     | Except.ok _ => "") ++ ". Skipping this topic."

/-- The CSV files on disk: path → rows written so far.  An absent path is
the same as an existing zero-byte file (append-mode `open` creates it and
`tell()` returns 0 for both). -/
abbrev FileTable := List (String × List (List String))

def getFile : FileTable → String → List (List String)
  | [], _ => []
  | q :: rest, p => if q.1 = p then q.2 else getFile rest p

def setFile : FileTable → String → List (List String) → FileTable
  | [], p, content => [(p, content)]
  | q :: rest, p, content =>
      if q.1 = p then (p, content) :: rest else q :: setFile rest p content

/-- The writer's state: the files plus everything printed so far. -/
structure WState where
  files : FileTable
  log : List String
  deriving Repr

/-- Lines 49-59, one loop iteration of `convert_to_csv`: open the topic's
CSV in append mode; if `tell() == 0` write the header row
(`writeheader()` runs *before* `writerow`, so on a fresh file the header
is on disk even when the data row then fails to serialize); then append
the data row, or — `except Exception` — print the topic and the error and
leave the stream running. -/
def processRecord (output_folder : String) (st : WState) (r : LogRecord) : WState :=
  let path := csv_file_path output_folder r.topic
  let content := getFile st.files path
  let afterHeader := if content = [] then content ++ [recFieldnames r.message] else content
  match recRow r with
  | Except.ok row =>
      ⟨setFile st.files path (afterHeader ++ [row]), st.log⟩
  | Except.error m =>
      ⟨setFile st.files path afterHeader,
       st.log ++ ["Error processing " ++ r.topic ++ ": " ++ m ++ ". Skipping this topic."]⟩

/-- Lines 44-59: `convert_to_csv(topic_generator, output_folder)` run over
the records the generator yields. -/
def convert_to_csv (records : List LogRecord) (output_folder : String) (st : WState) : WState :=
  records.foldl (processRecord output_folder) st

theorem getFile_setFile_self (fs : FileTable) (p : String) (c : List (List String)) :
    getFile (setFile fs p c) p = c := by
  induction fs with
  | nil => simp [getFile, setFile]
  | cons q rest ih =>
      by_cases h : q.1 = p
      · simp [getFile, setFile, h]
      · simp [getFile, setFile, h, ih]

theorem isOkRow_recRow (r : LogRecord) (h : isOkRow r = true) :
    recRow r = Except.ok (rowVal r) := by
  cases hE : recRow r with
  | ok row => simp [rowVal, hE]
  | error m => simp [isOkRow, hE] at h

theorem isOkRow_of_recRow_ok (r : LogRecord) (row : List String)
    (h : recRow r = Except.ok row) : isOkRow r = true := by
  simp [isOkRow, h]

theorem rowVal_of_recRow_ok (r : LogRecord) (row : List String)
    (h : recRow r = Except.ok row) : rowVal r = row := by
  simp [rowVal, h]

theorem errLine_of_recRow_error (r : LogRecord) (m : String)
    (h : recRow r = Except.error m) :
    errLine r = "Error processing " ++ r.topic ++ ": " ++ m ++ ". Skipping this topic." := by
  simp [errLine, h]

/-- Running the loop over records of one topic against an already non-empty
table: every successfully serialized record appends exactly its own data
row, every failing record appends nothing and prints its error line, no
header is ever written, and the stream is never aborted. -/
theorem convert_run (out t : String) :
    ∀ (records : List LogRecord) (st : WState),
      (∀ r ∈ records, r.topic = t) →
      getFile st.files (csv_file_path out t) ≠ [] →
      getFile (convert_to_csv records out st).files (csv_file_path out t)
          = getFile st.files (csv_file_path out t) ++ (records.filter isOkRow).map rowVal
        ∧ (convert_to_csv records out st).log
          = st.log ++ (records.filter (fun r => !isOkRow r)).map errLine := by
  intro records
  induction records with
  | nil => intro st _ _; simp [convert_to_csv]
  | cons r rs ih =>
      intro st htop hne
      have hrt : r.topic = t := htop r (by simp)
      have hrs : ∀ x ∈ rs, x.topic = t := fun x hx => htop x (by simp [hx])
      have hconv : convert_to_csv (r :: rs) out st = convert_to_csv rs out (processRecord out st r) := rfl
      rw [hconv]
      cases hE : recRow r with
      | ok row =>
          have hOk : isOkRow r = true := isOkRow_of_recRow_ok r row hE
          have hRV : rowVal r = row := rowVal_of_recRow_ok r row hE
          have h1 : processRecord out st r
              = ⟨setFile st.files (csv_file_path out t)
                  (getFile st.files (csv_file_path out t) ++ [row]), st.log⟩ := by
            simp [processRecord, hrt, hE, hne]
          rw [h1]
          obtain ⟨ha, hb⟩ := ih ⟨setFile st.files (csv_file_path out t)
              (getFile st.files (csv_file_path out t) ++ [row]), st.log⟩ hrs
            (by simp [getFile_setFile_self])
          constructor
          · rw [ha]
            simp [getFile_setFile_self, List.filter_cons, hOk, hRV]
          · rw [hb]
            simp [List.filter_cons, hOk]
      | error m =>
          have hOk : isOkRow r = false := by simp [isOkRow, hE]
          have hEL : errLine r
              = "Error processing " ++ r.topic ++ ": " ++ m ++ ". Skipping this topic." :=
            errLine_of_recRow_error r m hE
          have h1 : processRecord out st r
              = ⟨setFile st.files (csv_file_path out t)
                  (getFile st.files (csv_file_path out t)),
                 st.log ++ ["Error processing " ++ r.topic ++ ": " ++ m ++ ". Skipping this topic."]⟩ := by
            simp [processRecord, hrt, hE, hne]
          rw [h1]
          obtain ⟨ha, hb⟩ := ih ⟨setFile st.files (csv_file_path out t)
              (getFile st.files (csv_file_path out t)),
              st.log ++ ["Error processing " ++ r.topic ++ ": " ++ m ++ ". Skipping this topic."]⟩ hrs
            (by simp [getFile_setFile_self, hne])
          constructor
          · rw [ha]
            simp [getFile_setFile_self, List.filter_cons, hOk]
          · rw [hb]
            simp [List.filter_cons, hOk, hEL]

/-- Running the loop from an empty (or not yet existing) table: the first
record — whether or not its data row then serializes — fixes and writes the
header from its own fieldnames; afterwards exactly the successfully
serialized records' rows follow, and each failing record only prints its
error line. -/
theorem convert_fresh_mixed (out t : String) (r0 : LogRecord) (rest : List LogRecord)
    (st : WState)
    (htopic : ∀ r ∈ r0 :: rest, r.topic = t)
    (hempty : getFile st.files (csv_file_path out t) = []) :
    getFile (convert_to_csv (r0 :: rest) out st).files (csv_file_path out t)
      = recFieldnames r0.message :: ((r0 :: rest).filter isOkRow).map rowVal
    ∧ (convert_to_csv (r0 :: rest) out st).log
      = st.log ++ ((r0 :: rest).filter (fun r => !isOkRow r)).map errLine := by
  have hr0t : r0.topic = t := htopic r0 (by simp)
  have hrest : ∀ x ∈ rest, x.topic = t := fun x hx => htopic x (by simp [hx])
  have hconv : convert_to_csv (r0 :: rest) out st
      = convert_to_csv rest out (processRecord out st r0) := rfl
  rw [hconv]
  cases hE : recRow r0 with
  | ok row =>
      have hOk : isOkRow r0 = true := isOkRow_of_recRow_ok r0 row hE
      have hRV : rowVal r0 = row := rowVal_of_recRow_ok r0 row hE
      have h1 : processRecord out st r0
          = ⟨setFile st.files (csv_file_path out t) [recFieldnames r0.message, row], st.log⟩ := by
        simp [processRecord, hr0t, hE, hempty]
      rw [h1]
      obtain ⟨ha, hb⟩ := convert_run out t rest
        ⟨setFile st.files (csv_file_path out t) [recFieldnames r0.message, row], st.log⟩
        hrest (by simp [getFile_setFile_self])
      constructor
      · rw [ha]
        simp [getFile_setFile_self, List.filter_cons, hOk, hRV]
      · rw [hb]
        simp [List.filter_cons, hOk]
  | error m =>
      have hOk : isOkRow r0 = false := by simp [isOkRow, hE]
      have hEL : errLine r0
          = "Error processing " ++ r0.topic ++ ": " ++ m ++ ". Skipping this topic." :=
        errLine_of_recRow_error r0 m hE
      have h1 : processRecord out st r0
          = ⟨setFile st.files (csv_file_path out t) [recFieldnames r0.message],
             st.log ++ ["Error processing " ++ r0.topic ++ ": " ++ m ++ ". Skipping this topic."]⟩ := by
        simp [processRecord, hr0t, hE, hempty]
      rw [h1]
      obtain ⟨ha, hb⟩ := convert_run out t rest
        ⟨setFile st.files (csv_file_path out t) [recFieldnames r0.message],
         st.log ++ ["Error processing " ++ r0.topic ++ ": " ++ m ++ ". Skipping this topic."]⟩
        hrest (by simp [getFile_setFile_self])
      constructor
      · rw [ha]
        simp [getFile_setFile_self, List.filter_cons, hOk]
      · rw [hb]
        simp [List.filter_cons, hOk, hEL]

/-- Special case of `convert_fresh_mixed`: from an empty table, when every
record serializes, the file ends up as one header line (from the first
record) followed by one data row per record, in order. -/
theorem convert_fresh (out t : String) (r0 : LogRecord) (rest : List LogRecord)
    (st : WState)
    (htopic : ∀ r ∈ r0 :: rest, r.topic = t)
    (hok : ∀ r ∈ r0 :: rest, isOkRow r = true)
    (hempty : getFile st.files (csv_file_path out t) = []) :
    getFile (convert_to_csv (r0 :: rest) out st).files (csv_file_path out t)
      = recFieldnames r0.message :: (r0 :: rest).map rowVal := by
  have h := (convert_fresh_mixed out t r0 rest st htopic hempty).1
  rwa [List.filter_eq_self.mpr (by intro a ha; simp [hok a ha])] at h

/-- C2: for one topic's table, starting from a zero-byte file the writer
emits exactly one header line (before the first data row) and then one data
line per record — K records give 1 header + K data lines; starting from an
already non-empty file it appends data lines only and never writes another
header line. -/
theorem claim_C2_header_exactly_once (out t : String) (records : List LogRecord)
    (st : WState)
    (htopic : ∀ r ∈ records, r.topic = t)
    (hok : ∀ r ∈ records, isOkRow r = true) :
    (∀ r0 rest, records = r0 :: rest →
      getFile st.files (csv_file_path out t) = [] →
      getFile (convert_to_csv records out st).files (csv_file_path out t)
        = recFieldnames r0.message :: records.map rowVal)
    ∧ (getFile st.files (csv_file_path out t) ≠ [] →
      getFile (convert_to_csv records out st).files (csv_file_path out t)
        = getFile st.files (csv_file_path out t) ++ records.map rowVal) := by
  constructor
  · intro r0 rest hrec hempty
    subst hrec
    exact convert_fresh out t r0 rest st htopic hok hempty
  · intro hne
    have h := (convert_run out t records st htopic hne).1
    rwa [List.filter_eq_self.mpr (by intro a ha; simp [hok a ha])] at h

def c2rec1 : LogRecord :=
  ⟨"/t", Value.num 1, StructuredMessage.record
    [("x", StructuredMessage.scalar (Value.num 1)),
     ("y", StructuredMessage.scalar (Value.num 2))]⟩

def c2rec2 : LogRecord :=
  ⟨"/t", Value.num 2, StructuredMessage.record
    [("x", StructuredMessage.scalar (Value.num 3)),
     ("y", StructuredMessage.scalar (Value.num 4))]⟩

def c2rec3 : LogRecord :=
  ⟨"/t", Value.num 3, StructuredMessage.record
    [("x", StructuredMessage.scalar (Value.num 5)),
     ("y", StructuredMessage.scalar (Value.num 6))]⟩

theorem claim_C2_header_exactly_once_witness :
    getFile (convert_to_csv [c2rec1, c2rec2, c2rec3] "out" ⟨[], []⟩).files
        (csv_file_path "out" "/t")
      = [["Timestamp", "x", "y"], ["1", "1", "2"], ["2", "3", "4"], ["3", "5", "6"]] := by
  have h := (claim_C2_header_exactly_once "out" "/t" [c2rec1, c2rec2, c2rec3] ⟨[], []⟩
      (by simp [c2rec1, c2rec2, c2rec3])
      (by simp [c2rec1, c2rec2, c2rec3, isOkRow, recRow, recFieldnames, recDict, rowCells,
        cellText, pyStr, dictInsert, dictGet, extract_message_attributes, extractFrom,
        fullFieldName])).1
    c2rec1 [c2rec2, c2rec3] rfl (by simp [getFile])
  rw [h]
  simp [c2rec1, c2rec2, c2rec3, recFieldnames, recDict, rowVal, recRow, rowCells, cellText,
    pyStr, dictInsert, dictGet, extract_message_attributes, extractFrom, fullFieldName]
  decide

/-- C3 (amended): the column header of a topic's table is derived from the
first flattened record seen for that topic and is never rewritten; each
subsequent data row, however, is positioned against the *current* record's
own column set (`["Timestamp"] ++` its own flattened keys in discovery
order), which coincides with the header's fixed column set exactly when
the record's flattened field list matches the first record's — not
regardless of the later record's field set (see the counterexample). -/
theorem claim_C3_header_fixed_rows_by_own_fields (out t : String) (r0 : LogRecord)
    (rest : List LogRecord) (st : WState)
    (htopic : ∀ r ∈ r0 :: rest, r.topic = t)
    (hok : ∀ r ∈ r0 :: rest, isOkRow r = true)
    (hempty : getFile st.files (csv_file_path out t) = [])
    (hsame : ∀ r ∈ r0 :: rest, recFieldnames r.message = recFieldnames r0.message) :
    getFile (convert_to_csv (r0 :: rest) out st).files (csv_file_path out t)
      = recFieldnames r0.message :: (r0 :: rest).map rowVal
    ∧ ∀ r ∈ r0 :: rest, recRow r = rowCells (recFieldnames r0.message) (recDict r) := by
  refine ⟨convert_fresh out t r0 rest st htopic hok hempty, ?_⟩
  intro r hr
  rw [← hsame r hr]
  rfl

theorem claim_C3_header_fixed_witness :
    getFile (convert_to_csv [c2rec1, c2rec2] "out" ⟨[], []⟩).files (csv_file_path "out" "/t")
      = [["Timestamp", "x", "y"], ["1", "1", "2"], ["2", "3", "4"]]
    ∧ recRow c2rec2 = rowCells (recFieldnames c2rec1.message) (recDict c2rec2) := by
  have h := claim_C3_header_fixed_rows_by_own_fields "out" "/t" c2rec1 [c2rec2] ⟨[], []⟩
    (by simp [c2rec1, c2rec2])
    (by simp [c2rec1, c2rec2, isOkRow, recRow, recFieldnames, recDict, rowCells,
      cellText, pyStr, dictInsert, dictGet, extract_message_attributes, extractFrom,
      fullFieldName])
    (by simp [getFile])
    (by simp [c2rec1, c2rec2, recFieldnames, extract_message_attributes, extractFrom,
      fullFieldName])
  refine ⟨?_, h.2 c2rec2 (by simp)⟩
  rw [h.1]
  simp [c2rec1, c2rec2, recFieldnames, recDict, rowVal, recRow, rowCells, cellText,
    pyStr, dictInsert, dictGet, extract_message_attributes, extractFrom, fullFieldName]
  decide

def c3rec1 : LogRecord :=
  ⟨"/t", Value.num 1, StructuredMessage.record [("x", StructuredMessage.scalar (Value.num 1))]⟩

def c3rec2 : LogRecord :=
  ⟨"/t", Value.num 2, StructuredMessage.record [("y", StructuredMessage.scalar (Value.num 2))]⟩

/-- C3 counterexample: after a first record with field set `{x}` fixes the
header `Timestamp,x`, a second record with field set `{y}` is written as
the row produced by its *own* column set (its `y` value lands under the
`x` column), not as the row positioned against the fixed header columns,
which would leave the `x` cell empty (and with `csv.DictWriter`'s strict
`extrasaction` would in fact raise on the extra key `y`): the written
third line differs from the header-positioned row. -/
theorem claim_C3_counterexample :
    getFile (convert_to_csv [c3rec1, c3rec2] "out" ⟨[], []⟩).files (csv_file_path "out" "/t")
      = [["Timestamp", "x"], ["1", "1"], ["2", "2"]]
    ∧ rowCells ["Timestamp", "x"] (recDict c3rec2) = Except.ok ["2", ""]
    ∧ ["2", "2"] ≠ ["2", ""] := by
  refine ⟨?_, ?_, by decide⟩
  · simp [c3rec1, c3rec2, convert_to_csv, processRecord, recRow, recFieldnames, recDict,
      rowCells, cellText, pyStr, dictInsert, dictGet, extract_message_attributes, extractFrom,
      fullFieldName, csv_file_path, csvFileName, replaceChar, getFile, setFile]
    decide
  · simp [c3rec2, recDict, rowCells, cellText, pyStr, dictInsert, dictGet,
      extract_message_attributes, extractFrom, fullFieldName]
    decide

/-- C5: a record whose flattening/serialization raises is caught inside the
loop (`except Exception`, line 58): the topic and the error are printed,
only that record's data row is missing, and every other record of the
stream — before and after the failure — is still written; the stream is
never aborted.  Stated for a table that is already non-empty (first
conjunct) and for a stream that starts the table (second conjunct, where
the first record also fixes and writes the header even if its own row then
fails). -/
theorem claim_C5_per_record_failure_skipped (out t : String) (records : List LogRecord)
    (st : WState)
    (htopic : ∀ r ∈ records, r.topic = t) :
    (getFile st.files (csv_file_path out t) ≠ [] →
      getFile (convert_to_csv records out st).files (csv_file_path out t)
          = getFile st.files (csv_file_path out t) ++ (records.filter isOkRow).map rowVal
        ∧ (convert_to_csv records out st).log
          = st.log ++ (records.filter (fun r => !isOkRow r)).map errLine)
    ∧ (∀ r0 rest, records = r0 :: rest →
      getFile st.files (csv_file_path out t) = [] →
      getFile (convert_to_csv records out st).files (csv_file_path out t)
          = recFieldnames r0.message :: (records.filter isOkRow).map rowVal
        ∧ (convert_to_csv records out st).log
          = st.log ++ (records.filter (fun r => !isOkRow r)).map errLine) := by
  constructor
  · intro hne
    exact convert_run out t records st htopic hne
  · intro r0 rest hrec hempty
    subst hrec
    exact convert_fresh_mixed out t r0 rest st htopic hempty

def c5bad : LogRecord :=
  ⟨"/t", Value.num 2, StructuredMessage.record
    [("x", StructuredMessage.scalar (Value.err "cannot serialize"))]⟩

theorem claim_C5_per_record_failure_skipped_witness :
    getFile (convert_to_csv [c3rec1, c5bad, c3rec1] "out"
        ⟨[("out/_t.csv", [["Timestamp", "x"]])], []⟩).files (csv_file_path "out" "/t")
      = [["Timestamp", "x"], ["1", "1"], ["1", "1"]]
    ∧ (convert_to_csv [c3rec1, c5bad, c3rec1] "out"
        ⟨[("out/_t.csv", [["Timestamp", "x"]])], []⟩).log
      = ["Error processing /t: cannot serialize. Skipping this topic."] := by
  have h := (claim_C5_per_record_failure_skipped "out" "/t" [c3rec1, c5bad, c3rec1]
      ⟨[("out/_t.csv", [["Timestamp", "x"]])], []⟩
      (by simp [c3rec1, c5bad])).1
    (by simp [csv_file_path, csvFileName, replaceChar, getFile])
  refine ⟨?_, ?_⟩
  · rw [h.1]
    simp [c3rec1, c5bad, recFieldnames, recDict, rowVal, recRow, rowCells, cellText,
      pyStr, dictInsert, dictGet, extract_message_attributes, extractFrom, fullFieldName,
      isOkRow, csv_file_path, csvFileName, replaceChar, getFile]
    decide
  · rw [h.2]
    simp [c3rec1, c5bad, errLine, recRow, recFieldnames, recDict, rowCells, cellText,
      pyStr, dictInsert, dictGet, extract_message_attributes, extractFrom, fullFieldName,
      isOkRow]
    decide

theorem replaceChar_eq_map (old new : Char) (l : List Char) :
    replaceChar old new l = l.map (fun c => if c = old then new else c) := by
  induction l with
  | nil => rfl
  | cons c rest ih => simp [replaceChar, ih]

/-- C9: the output CSV file for a retained topic is named by replacing every
`/` in the topic name with `_` and appending `.csv` (`/pose` ↦ `_pose.csv`,
so no slash survives in the name), and it is placed inside the per-input
output directory. -/
theorem claim_C9_topic_to_filename :
    (∀ output_folder topic : String, csv_file_path output_folder topic
        = output_folder ++ "/"
            ++ String.mk (topic.data.map (fun c => if c = '/' then '_' else c)) ++ ".csv")
    ∧ (∀ topic : String, (replaceChar '/' '_' topic.data).count '/' = 0)
    ∧ csvFileName "/pose" = "_pose.csv"
    ∧ csv_file_path "outdir" "/pose" = "outdir/_pose.csv" := by
  refine ⟨?_, ?_, rfl, rfl⟩
  · intro out topic
    simp [csv_file_path, csvFileName, replaceChar_eq_map, String.append_assoc]
  · intro topic
    rw [replaceChar_eq_map, List.count_eq_zero]
    intro hmem
    obtain ⟨c, _, hc⟩ := List.mem_map.mp hmem
    by_cases h : c = '/'
    · rw [if_pos h] at hc
      exact absurd hc (by decide)
    · rw [if_neg h] at hc
      exact h hc

/-- The last index at which a character occurs in a list, Python `rfind`. -/
def lastIndexOf (c : Char) : List Char → Option Nat
  | [] => none
  | a :: rest =>
      match lastIndexOf c rest with
      | some i => some (i + 1)
      | none => if a = c then some 0 else none

/-- `os.path.splitext(p)[0]` (line 68): everything before the last dot,
provided that dot lies in the final path component and the component does
not consist solely of leading dots up to it; otherwise the whole path. -/
def splitextStem (s : String) : String :=
  let l := s.data
  let base := match lastIndexOf '/' l with
    | some i => i + 1
    | none => 0
  match lastIndexOf '.' l with
  | none => s
  | some d =>
      if ((l.drop base).take (d - base)).any (fun c => !(c = '.')) then String.mk (l.take d)
      else s

/-- Line 68: `os.path.splitext(bag_file)[0] + "_csv"`. -/
def output_folder_of (bag_file : String) : String :=
  splitextStem bag_file ++ "_csv"

/-- The environment one job runs against: whether `os.makedirs` (line 69)
raises, and what the bag file yields when read. -/
structure JobEnv where
  mkdirFailure : Option PyError
  bag : Bag

/-- The observable outcome of `process_bag_file`: the files written, the
lines printed, and an exception escaping the call, if any. -/
structure JobResult where
  files : FileTable
  log : List String
  escaped : Option PyError
  deriving Repr, DecidableEq

/-- Lines 62-76: `process_bag_file(bag_file)`.  The `try` covers the whole
body but the `except` clause catches *only* `OSError`; the per-record
`except Exception` inside `convert_to_csv` never lets a record error reach
this level, while an exception raised by the `extract_topics` generator
surfaces at `convert_to_csv`'s `for` statement (outside its inner `try`)
and propagates here.  The elapsed-seconds figure of line 74's message is
not modelled; the success print is recorded as `"Processed <file>"`. -/
def process_bag_file (bag_file : String) (env : JobEnv) (fs : FileTable) : JobResult :=
  match env.mkdirFailure with
  | some (PyError.osError m) => ⟨fs, ["Error processing " ++ bag_file ++ ": " ++ m], none⟩
  | some e => ⟨fs, [], some e⟩
  | none =>
      let g := extract_topics bag_file env.bag
      let st := convert_to_csv g.yielded (output_folder_of bag_file) ⟨fs, []⟩
      match g.escaped with
      | none => ⟨st.files, st.log ++ g.log ++ ["Processed " ++ bag_file], none⟩
      | some (PyError.osError m) =>
          ⟨st.files, st.log ++ ["Error processing " ++ bag_file ++ ": " ++ m], none⟩
      | some e => ⟨st.files, st.log, some e⟩

/-- C7 (amended): the job boundary catches `OSError` only: an `OSError` —
from creating the output directory or escaping the bag read — is caught
and logged with the file path and never propagates out of
`process_bag_file`; an error of any other exception class propagates (see
the counterexample). -/
theorem claim_C7_job_boundary_catches_oserror (bag_file : String) (env : JobEnv)
    (fs : FileTable) :
    (∀ m, env.mkdirFailure = some (PyError.osError m) →
      process_bag_file bag_file env fs
        = ⟨fs, ["Error processing " ++ bag_file ++ ": " ++ m], none⟩)
    ∧ (∀ m, env.mkdirFailure = none →
      (extract_topics bag_file env.bag).escaped = some (PyError.osError m) →
      (process_bag_file bag_file env fs).escaped = none
        ∧ (process_bag_file bag_file env fs).log
            = (convert_to_csv (extract_topics bag_file env.bag).yielded
                (output_folder_of bag_file) ⟨fs, []⟩).log
              ++ ["Error processing " ++ bag_file ++ ": " ++ m])
    ∧ (∀ m, (process_bag_file bag_file env fs).escaped ≠ some (PyError.osError m)) := by
  refine ⟨?_, ?_, ?_⟩
  · intro m h
    simp [process_bag_file, h]
  · intro m hmk hesc
    simp [process_bag_file, hmk, hesc]
  · intro m
    cases hmk : env.mkdirFailure with
    | none =>
        cases hesc : (extract_topics bag_file env.bag).escaped with
        | none => simp [process_bag_file, hmk, hesc]
        | some e =>
            cases e <;> simp [process_bag_file, hmk, hesc]
    | some e =>
        cases e <;> simp [process_bag_file, hmk]

def c7envMkdir : JobEnv := ⟨some (PyError.osError "Permission denied"), ⟨[], none⟩⟩

theorem claim_C7_job_boundary_witness :
    process_bag_file "a.bag" c7envMkdir []
      = ⟨[], ["Error processing a.bag: Permission denied"], none⟩ := by
  have h := (claim_C7_job_boundary_catches_oserror "a.bag" c7envMkdir []).1
    "Permission denied" rfl
  rw [h]
  simp

def c7envOther : JobEnv := ⟨none, ⟨[], some (PyError.otherError "message deserialization error")⟩⟩

/-- C7 counterexample: a bag-read failure of a class other than `OSError`
and `rosbag.ROSBagException` (e.g. a `genpy` deserialization error) is
caught neither inside `extract_topics` nor by line 75's `except OSError`:
it escapes `process_bag_file`, contradicting the claim that *any* unhandled
error is caught at the job boundary. -/
theorem claim_C7_counterexample :
    (process_bag_file "a.bag" c7envOther []).escaped
      = some (PyError.otherError "message deserialization error")
    ∧ (process_bag_file "a.bag" c7envOther []).escaped ≠ none := by
  decide

/-- Line 84: `int(cpu_count * 0.8)`.  For CPU counts in any realistic range
the double-precision product `cpu_count * 0.8` truncates to the same value
as the exact product, so the computation is modelled as the exact floor
`⌊cpu_count · 8 / 10⌋` over naturals. -/
def target_processes (cpu_count : Nat) : Nat :=
  cpu_count * 8 / 10

/-- Line 85's collaborator, `multiprocessing.Pool(processes=n)`: the Python
standard library raises `ValueError("Number of processes must be at least 1")`
unless `n ≥ 1`, so the pool is constructible iff `1 ≤ n`. -/
def poolConstructible (n : Nat) : Bool :=
  decide (1 ≤ n)

/-- C8 counterexample: with one available CPU the computed pool size is
`int(1 * 0.8) = 0`, which is less than the claimed minimum of 1, and
`multiprocessing.Pool(processes=0)` cannot be constructed. -/
theorem claim_C8_counterexample :
    target_processes 1 = 0
    ∧ ¬ 1 ≤ target_processes 1
    ∧ poolConstructible (target_processes 1) = false := by
  decide

/-- C8 (amended): the worker-pool size equals `⌊0.8 · c⌋` for `c` available
CPUs; no minimum is enforced, but for every `c ≥ 2` the size is at least 1
and the pool can be constructed (for `c = 1` it is 0 and `Pool` raises —
see the counterexample). -/
theorem claim_C8_pool_size_is_floor (c : Nat) (h : 2 ≤ c) :
    target_processes c = c * 4 / 5
    ∧ 1 ≤ target_processes c
    ∧ poolConstructible (target_processes c) = true := by
  refine ⟨?_, ?_, ?_⟩
  · simp [target_processes]
    omega
  · simp [target_processes]
    omega
  · simp [poolConstructible, target_processes]
    omega

theorem claim_C8_pool_size_is_floor_witness :
    2 ≤ 10
    ∧ (target_processes 10 = 10 * 4 / 5
      ∧ 1 ≤ target_processes 10
      ∧ poolConstructible (target_processes 10) = true) :=
  ⟨by decide, claim_C8_pool_size_is_floor 10 (by decide)⟩

theorem rowCells_zip (d : List (String × Value)) :
    ∀ (fns row : List String), rowCells fns d = Except.ok row →
      ∀ pr ∈ fns.zip row, cellText d pr.1 = Except.ok pr.2 := by
  intro fns
  induction fns with
  | nil =>
      intro row h pr hpr
      simp [rowCells] at h
      subst h
      simp at hpr
  | cons f rest ih =>
      intro row h pr hpr
      cases hc : cellText d f with
      | error m => simp [rowCells, hc] at h
      | ok s =>
          cases hr : rowCells rest d with
          | error m => simp [rowCells, hc, hr] at h
          | ok tail =>
              have hrow : row = s :: tail := by
                simp [rowCells, hc, hr] at h
                exact h.symm
              subst hrow
              simp only [List.zip_cons_cons, List.mem_cons] at hpr
              rcases hpr with hpr | hpr
              · subst hpr
                exact hc
              · exact ih tail hr pr hpr

/-- C10: when a message carries its own top-level scalar field named
`Timestamp` (and no other flattened key is `Timestamp`), the fieldname list
`['Timestamp'] + keys` contains the column `Timestamp` twice, line 56's
`attributes['Timestamp'] = timestamp` overwrites the message's own value
with the record timestamp, and in every `Timestamp` position of the written
row the cell is the record timestamp — the message's original value is
gone from the row dict. -/
theorem claim_C10_timestamp_collision (topic : String) (ts v : Value)
    (restFields : List (String × StructuredMessage))
    (hrest : "Timestamp" ∉ (extractFrom restFields none).map (fun p => p.1)) :
    (recFieldnames (StructuredMessage.record
        (("Timestamp", StructuredMessage.scalar v) :: restFields))).count "Timestamp" = 2
    ∧ dictGet (recDict ⟨topic, ts, StructuredMessage.record
        (("Timestamp", StructuredMessage.scalar v) :: restFields)⟩) "Timestamp" = some ts
    ∧ ∀ row, recRow ⟨topic, ts, StructuredMessage.record
        (("Timestamp", StructuredMessage.scalar v) :: restFields)⟩ = Except.ok row →
      ∀ pr ∈ (recFieldnames (StructuredMessage.record
          (("Timestamp", StructuredMessage.scalar v) :: restFields))).zip row,
        pr.1 = "Timestamp" → pyStr ts = Except.ok pr.2 := by
  have hkeys : extract_message_attributes (StructuredMessage.record
      (("Timestamp", StructuredMessage.scalar v) :: restFields)) none
      = ("Timestamp", v) :: extractFrom restFields none := by
    simp [extract_message_attributes, extractFrom, fullFieldName]
  have h0 : ((extractFrom restFields none).map (fun p => p.1)).count "Timestamp" = 0 :=
    List.count_eq_zero.mpr hrest
  have hdict : recDict ⟨topic, ts, StructuredMessage.record
      (("Timestamp", StructuredMessage.scalar v) :: restFields)⟩
      = ("Timestamp", ts) :: extractFrom restFields none := by
    simp [recDict, hkeys, dictInsert]
  refine ⟨?_, ?_, ?_⟩
  · simp [recFieldnames, hkeys, List.count_cons, h0]
  · simp [hdict, dictGet]
  · intro row hrow pr hpr hts
    have hcell := rowCells_zip _ _ row hrow pr hpr
    rw [hts] at hcell
    rw [← hcell]
    simp [cellText, hdict, dictGet]

theorem claim_C10_timestamp_collision_witness :
    ("Timestamp" ∉ (extractFrom [("x", StructuredMessage.scalar (Value.num 1))] none).map
        (fun p => p.1))
    ∧ ((recFieldnames (StructuredMessage.record
        (("Timestamp", StructuredMessage.scalar (Value.num 7))
          :: [("x", StructuredMessage.scalar (Value.num 1))]))).count "Timestamp" = 2
      ∧ dictGet (recDict ⟨"/t", Value.num 99, StructuredMessage.record
          (("Timestamp", StructuredMessage.scalar (Value.num 7))
            :: [("x", StructuredMessage.scalar (Value.num 1))])⟩) "Timestamp"
          = some (Value.num 99)
      ∧ ∀ row, recRow ⟨"/t", Value.num 99, StructuredMessage.record
          (("Timestamp", StructuredMessage.scalar (Value.num 7))
            :: [("x", StructuredMessage.scalar (Value.num 1))])⟩ = Except.ok row →
        ∀ pr ∈ (recFieldnames (StructuredMessage.record
            (("Timestamp", StructuredMessage.scalar (Value.num 7))
              :: [("x", StructuredMessage.scalar (Value.num 1))]))).zip row,
          pr.1 = "Timestamp" → pyStr (Value.num 99) = Except.ok pr.2) :=
  ⟨by simp [extractFrom, fullFieldName],
   claim_C10_timestamp_collision "/t" (Value.num 99) (Value.num 7)
     [("x", StructuredMessage.scalar (Value.num 1))]
     (by simp [extractFrom, fullFieldName])⟩
